import Mathlib

/-!
Verification of the Brook Verlet integration step kernel
(`BrookIntegrateVerletStepKernel.cpp`).

The kernel glue (`initialize`, `execute`, the constructor and the log
accessors) is embedded directly from the C++ source.  The bodies of the
collaborating objects `BrookVerletDynamics` and `BrookShakeAlgorithm` are not
part of the available source (only their call sites are), so those operations
are modelled from the specification; each such definition carries a doc
comment starting with `Modelled from the spec:`.

Numeric values (C `double` / `BrookOpenMMFloat`) are represented by exact
rationals; the claims under study concern control flow and data plumbing, not
floating-point rounding.
-/

set_option autoImplicit false

namespace OpenMM

/-- A 3-vector of rationals, standing for the position/velocity/force
3-vectors of the C++ code. -/
structure Vec3 where
  x : ℚ
  y : ℚ
  z : ℚ
  deriving DecidableEq, Repr

def Vec3.add (a b : Vec3) : Vec3 := ⟨a.x + b.x, a.y + b.y, a.z + b.z⟩

def Vec3.sub (a b : Vec3) : Vec3 := ⟨a.x - b.x, a.y - b.y, a.z - b.z⟩

def Vec3.smul (c : ℚ) (a : Vec3) : Vec3 := ⟨c * a.x, c * a.y, c * a.z⟩

def Vec3.dot (a b : Vec3) : ℚ := a.x * b.x + a.y * b.y + a.z * b.z

def Vec3.zero : Vec3 := ⟨0, 0, 0⟩

/-- Three-way `zipWith`, used for the per-particle Verlet update. -/
def zipWith3 {α β γ δ : Type} (f : α → β → γ → δ) : List α → List β → List γ → List δ
  | a :: as, b :: bs, c :: cs => f a b c :: zipWith3 f as bs cs
  | _, _, _ => []

/-- The topology/parameter collaborator, as consumed by
`BrookIntegrateVerletStepKernel::initialize`: particle count and masses,
constraint count and per-constraint `(particle1, particle2, distance)`
triples (the out-parameters of `System::getConstraintParameters`). -/
structure System where
  numParticles : ℕ
  getParticleMass : ℕ → ℚ
  numConstraints : ℕ
  getConstraintParameters : ℕ → ℕ × ℕ × ℚ

/-- The driving `VerletIntegrator`: configured step size and constraint
tolerance, as read by `getStepSize()` and `getConstraintTolerance()`. -/
structure VerletIntegrator where
  stepSize : ℚ
  constraintTolerance : ℚ
  deriving DecidableEq

/-- The `double → BrookOpenMMFloat` conversion applied to the integrator's
constraint tolerance (`static_cast<BrookOpenMMFloat>` at line 169).  In this
exact-arithmetic embedding the narrowing cast is the identity. -/
def brookFloatOfDouble (q : ℚ) : ℚ := q

/-- Inverse mass as specified: `1/mass` when the mass is positive, `0`
(fixed particle) otherwise. -/
def invMass (m : ℚ) : ℚ := if 0 < m then 1 / m else 0

/-- Setup-time configuration errors (spec section 7 taxonomy). -/
inductive ConfigError where
  | malformedConstraint
  | mismatchedLengths
  deriving DecidableEq, Repr

/-- State of a `BrookVerletDynamics` object: the per-particle masses handed
to `setup`, the cached step size read back by `getStepSize()`, and the log
sink installed with `setLog`.  A freshly constructed object has empty tables,
cached step size `0` and no log. -/
structure BrookVerletDynamics where
  masses : List ℚ := []
  stepSize : ℚ := 0
  log : Option Unit := none
  deriving DecidableEq

/-- Modelled from the spec: `BrookVerletDynamics::setup` is not in the
available source; per the data-flow description it installs the mass table
built by the kernel.  (The Brook platform argument carries no data relevant
to the claims and is omitted.) -/
def BrookVerletDynamics.setup (dyn : BrookVerletDynamics) (masses : List ℚ) :
    BrookVerletDynamics :=
  { dyn with masses := masses }

def BrookVerletDynamics.setLog (dyn : BrookVerletDynamics) (log : Option Unit) :
    BrookVerletDynamics :=
  { dyn with log := log }

/-- Modelled from the spec: `BrookVerletDynamics::updateParameters` is not in
the available source; per the spec it refreshes the stepper's cached
step-size-dependent state to the new step size. -/
def BrookVerletDynamics.updateParameters (dyn : BrookVerletDynamics) (stepSize : ℚ) :
    BrookVerletDynamics :=
  { dyn with stepSize := stepSize }

/-- State of a `BrookShakeAlgorithm` object: mass table, constraint index
pairs and target lengths as handed to `setup`, plus the SHAKE tolerance,
iteration cap and log sink installed by the corresponding setters. -/
structure BrookShakeAlgorithm where
  masses : List ℚ := []
  constraintIndices : List (List ℕ) := []
  constraintLengths : List ℚ := []
  shakeTolerance : ℚ := 0
  maxIterations : ℕ := 0
  log : Option Unit := none
  deriving DecidableEq

def BrookShakeAlgorithm.setLog (shake : BrookShakeAlgorithm) (log : Option Unit) :
    BrookShakeAlgorithm :=
  { shake with log := log }

def BrookShakeAlgorithm.setShakeTolerance (shake : BrookShakeAlgorithm) (tol : ℚ) :
    BrookShakeAlgorithm :=
  { shake with shakeTolerance := tol }

def BrookShakeAlgorithm.setMaxIterations (shake : BrookShakeAlgorithm) (n : ℕ) :
    BrookShakeAlgorithm :=
  { shake with maxIterations := n }

/-- A constraint record `[particle1, particle2]` with length `d` is
well-formed for `n` particles when both indices are in range, the pair is not
self-referential, and the target distance is strictly positive. -/
def validConstraint (n : ℕ) (pair : List ℕ) (d : ℚ) : Bool :=
  match pair with
  | [p1, p2] =>
      decide (p1 < n) && decide (p2 < n) && decide (p1 ≠ p2) && decide (0 < d)
  | _ => false

/-- Modelled from the spec: `BrookShakeAlgorithm::setup` is not in the
available source.  Per the spec (sections 4.1, 6, 7) setup stores the mass
table and the constraint pairs/lengths, and fails fatally on mismatched array
lengths or on any malformed constraint (out-of-range particle index,
self-referential pair, non-positive distance). -/
def BrookShakeAlgorithm.setup (shake : BrookShakeAlgorithm) (masses : List ℚ)
    (constraintIndices : List (List ℕ)) (constraintLengths : List ℚ) :
    Except ConfigError BrookShakeAlgorithm :=
  if constraintIndices.length ≠ constraintLengths.length then
    .error .mismatchedLengths
  else if (constraintIndices.zip constraintLengths).all
      (fun pd => validConstraint masses.length pd.1 pd.2) then
    .ok { shake with
          masses := masses,
          constraintIndices := constraintIndices,
          constraintLengths := constraintLengths }
  else
    .error .malformedConstraint

/-- State of a `BrookIntegrateVerletStepKernel` object: the log sink set by
the constructor, the two collaborator objects (`NULL`, i.e. `none`, until a
successful `initialize`), and the number of diagnostic lines written to the
log. -/
structure KernelState where
  log : Option Unit
  dynamics : Option BrookVerletDynamics
  shake : Option BrookShakeAlgorithm
  logLines : ℕ
  deriving DecidableEq

/-- The kernel constructor (source lines 48-68): the collaborator pointers
start `NULL`, and the platform's log sink is installed when present. -/
def mkKernel (platformLog : Option Unit) : KernelState :=
  { log := platformLog, dynamics := none, shake := none, logLines := 0 }

/-- The `printOn` debug flag of `initialize` (source line 125): constantly
`0`, so the diagnostic `fprintf` never fires. -/
def printOn : ℕ := 0

namespace BrookIntegrateVerletStepKernel

/-- Embedding of `BrookIntegrateVerletStepKernel::initialize` (source lines
121-178): build the mass vector from the system, build the constraint index
vectors and length vector from `getConstraintParameters`, set up the Verlet
dynamics and the SHAKE algorithm, install the integrator's constraint
tolerance (cast to the platform float type) and the iteration cap 40, and
optionally log.  `BrookShakeAlgorithm::setup` may fail (spec-modelled
validation); per the spec such a configuration error is fatal and aborts
setup, so it propagates and the remaining statements do not run. -/
def init (k : KernelState) (s : System) (integrator : VerletIntegrator) :
    Except ConfigError KernelState :=
  let log := k.log
  let numberOfParticles := s.numParticles
  let masses := (List.range numberOfParticles).map s.getParticleMass
  let numberOfConstraints := s.numConstraints
  let constraintIndicesVector := (List.range numberOfConstraints).map
    (fun ii => [(s.getConstraintParameters ii).1, (s.getConstraintParameters ii).2.1])
  let constraintLengths := (List.range numberOfConstraints).map
    (fun ii => (s.getConstraintParameters ii).2.2)
  let dyn : BrookVerletDynamics := {}
  let dyn := dyn.setup masses
  let dyn := dyn.setLog log
  let shake0 : BrookShakeAlgorithm := {}
  let shake0 := shake0.setLog log
  match shake0.setup masses constraintIndicesVector constraintLengths with
  | .error e => .error e
  | .ok shake =>
      let tolerance := brookFloatOfDouble integrator.constraintTolerance
      let shake := shake.setShakeTolerance tolerance
      let shake := shake.setMaxIterations 40
      .ok { log := k.log,
            dynamics := some dyn,
            shake := some shake,
            logLines := k.logLines + (if printOn ≠ 0 ∧ log.isSome then 1 else 0) }

end BrookIntegrateVerletStepKernel

/-- Position lookup with the zero vector as out-of-range default. -/
def getPos (ps : List Vec3) (i : ℕ) : Vec3 := ps.getD i Vec3.zero

/-- The constraint triples `(particle1, particle2, distance)` stored in a
SHAKE algorithm object, recovered from the index-pair and length vectors. -/
def BrookShakeAlgorithm.constraintTriples (shake : BrookShakeAlgorithm) :
    List (ℕ × ℕ × ℚ) :=
  (shake.constraintIndices.zip shake.constraintLengths).map
    (fun pd => (pd.1.getD 0 0, pd.1.getD 1 0, pd.2))

/-- Modelled from the spec (section 4.3, step 2): a constraint `(a, b, d)` is
satisfied at positions `ps` when the relative squared-distance error
`(r.r - d*d) / (d*d)` is within the tolerance in absolute value. -/
def constraintSatisfied (tol : ℚ) (ps : List Vec3) (c : ℕ × ℕ × ℚ) : Bool :=
  let r := Vec3.sub (getPos ps c.2.1) (getPos ps c.1)
  let d2 := c.2.2 * c.2.2
  decide (|Vec3.dot r r - d2| / d2 ≤ tol)

/-- Modelled from the spec (section 4.3, step 3): the symmetric SHAKE
correction for one constraint.  A pair with zero combined inverse mass is
skipped; otherwise the correction magnitude comes from the violation, the
pre-step displacement `rOld` and the combined inverse mass, and each particle
moves along `rOld` proportionally to its own inverse mass, in opposite
directions. -/
def applyShakeConstraint (masses : List ℚ) (oldPos : List Vec3) (ps : List Vec3)
    (c : ℕ × ℕ × ℚ) : List Vec3 :=
  let a := c.1
  let b := c.2.1
  let d := c.2.2
  let invMa := invMass (masses.getD a 0)
  let invMb := invMass (masses.getD b 0)
  if invMa + invMb = 0 then ps
  else
    let pa := getPos ps a
    let pb := getPos ps b
    let r := Vec3.sub pb pa
    let rOld := Vec3.sub (getPos oldPos b) (getPos oldPos a)
    let diff := Vec3.dot r r - d * d
    let g := diff / (2 * (invMa + invMb) * Vec3.dot r rOld)
    let ps1 := ps.set a (Vec3.add pa (Vec3.smul (g * invMa) rOld))
    ps1.set b (Vec3.sub pb (Vec3.smul (g * invMb) rOld))

/-- Modelled from the spec (section 4.3): one SHAKE pass sweeps the
constraints in order, each correction seeing the latest corrected
positions. -/
def shakePass (masses : List ℚ) (oldPos : List Vec3) (ps : List Vec3)
    (cs : List (ℕ × ℕ × ℚ)) : List Vec3 :=
  cs.foldl (applyShakeConstraint masses oldPos) ps

/-- Modelled from the spec (section 4.3): the SHAKE iteration.  At the start
of each pass, if every constraint is satisfied the solver stops converged;
otherwise it applies a pass.  Exhausting the iteration budget without the
check succeeding is non-convergence (`false`). -/
def shakeLoop (masses : List ℚ) (tol : ℚ) (cs : List (ℕ × ℕ × ℚ))
    (oldPos : List Vec3) : ℕ → List Vec3 → List Vec3 × Bool
  | 0, ps => (ps, false)
  | Nat.succ n, ps =>
      if cs.all (constraintSatisfied tol ps) then (ps, true)
      else shakeLoop masses tol cs oldPos n (shakePass masses oldPos ps cs)

/-- Modelled from the spec: `BrookShakeAlgorithm`'s constraint projection,
`project(oldPositions, newPositions, ...) → corrected positions, converged`,
bounded by the object's iteration cap. -/
def BrookShakeAlgorithm.project (shake : BrookShakeAlgorithm)
    (oldPos newPos : List Vec3) : List Vec3 × Bool :=
  shakeLoop shake.masses shake.shakeTolerance shake.constraintTriples oldPos
    shake.maxIterations newPos

/-- Modelled from the spec (section 4.2): the per-particle leapfrog Verlet
update, `v += dt * invM * f` then `x += dt * v`.  Returns the candidate
positions and the post-kick velocities. -/
def verletAdvance (invMasses : List ℚ) (dt : ℚ) (ps vs fs : List Vec3) :
    List Vec3 × List Vec3 :=
  let newVs := zipWith3 (fun im v f => Vec3.add v (Vec3.smul (dt * im) f)) invMasses vs fs
  let newPs := List.zipWith (fun p v => Vec3.add p (Vec3.smul dt v)) ps newVs
  (newPs, newVs)

/-- Modelled from the spec (section 4.4, step d): after the projection,
velocities are corrected by the net positional displacement over the step,
`v += (corrected - uncorrected) / dt`. -/
def velocityCorrection (dt : ℚ) (vs uncorrected corrected : List Vec3) :
    List Vec3 :=
  zipWith3 (fun v pu pc => Vec3.add v (Vec3.smul (1 / dt) (Vec3.sub pc pu)))
    vs uncorrected corrected

/-- Modelled from the spec: `BrookVerletDynamics::update` is not in the
available source.  Per the spec it runs the Verlet advance on the borrowed
position/velocity/force arrays with the cached step size, hands the pre-step
and candidate positions to the SHAKE projection, corrects the velocities for
the projection displacement, and yields the constrained positions,
velocities, and the solver's convergence flag. -/
def BrookVerletDynamics.update (dyn : BrookVerletDynamics)
    (ps vs fs : List Vec3) (shake : BrookShakeAlgorithm) :
    List Vec3 × List Vec3 × Bool :=
  let invMasses := dyn.masses.map invMass
  let stepped := verletAdvance invMasses dyn.stepSize ps vs fs
  let proj := shake.project ps stepped.1
  (proj.1, velocityCorrection dyn.stepSize stepped.2 stepped.1 proj.1, proj.2)

/-- The step-size comparison epsilon of `execute` (source line 192): the
fixed absolute constant `1.0e-04`. -/
def epsilon : ℚ := 1 / 10000

/-- What one `execute` call leaves behind, mirroring the C++ observable
effects: the (possibly refreshed) dynamics object, the in-place-mutated
position and velocity arrays, and which branch of the step-size check ran.
`execute` is `void`: no convergence flag appears here. -/
structure ExecResult where
  dynamics : BrookVerletDynamics
  positions : List Vec3
  velocities : List Vec3
  invokedUpdateParameters : Bool
  deriving DecidableEq

namespace BrookIntegrateVerletStepKernel

/-- Embedding of `BrookIntegrateVerletStepKernel::execute` (source lines
188-212): read the integrator's step size, compare against the dynamics
object's cached step size, call `updateParameters` exactly when the absolute
difference exceeds epsilon, then run `BrookVerletDynamics::update`, whose
convergence flag the C++ discards (the call's return value is unused and
`execute` is `void`).  `none` models the `NULL`-pointer dereference of an
uninitialized kernel. -/
def execute (k : KernelState) (integrator : VerletIntegrator)
    (ps vs fs : List Vec3) : Option ExecResult :=
  match k.dynamics, k.shake with
  | some dyn, some shake =>
      let stepSize := integrator.stepSize
      let difference := stepSize - dyn.stepSize
      let dyn2 := if |difference| > epsilon then dyn.updateParameters stepSize else dyn
      let stepped := dyn2.update ps vs fs shake
      some { dynamics := dyn2,
             positions := stepped.1,
             velocities := stepped.2.1,
             invokedUpdateParameters := decide (|difference| > epsilon) }
  | _, _ => none

/-- Setup followed by one step: `execute` runs only on the kernel state a
successful `init` produced; a setup error propagates and no step runs. -/
def initThenStep (k : KernelState) (s : System) (integrator : VerletIntegrator)
    (ps vs fs : List Vec3) : Except ConfigError (Option ExecResult) :=
  match init k s integrator with
  | .error e => .error e
  | .ok k2 => .ok (execute k2 integrator ps vs fs)

end BrookIntegrateVerletStepKernel

/-! ### Log-free observations

Projections of the collaborator states and of a step's results that drop the
log sinks, used to state that the logging hook causes no behavior change. -/

/-- The numeric configuration of a `BrookVerletDynamics` object: everything
but the log sink. -/
structure DynamicsConfig where
  masses : List ℚ
  stepSize : ℚ
  deriving DecidableEq

def BrookVerletDynamics.config (dyn : BrookVerletDynamics) : DynamicsConfig :=
  ⟨dyn.masses, dyn.stepSize⟩

/-- The numeric configuration of a `BrookShakeAlgorithm` object: everything
but the log sink. -/
structure ShakeConfig where
  masses : List ℚ
  constraintIndices : List (List ℕ)
  constraintLengths : List ℚ
  shakeTolerance : ℚ
  maxIterations : ℕ
  deriving DecidableEq

def BrookShakeAlgorithm.config (shake : BrookShakeAlgorithm) : ShakeConfig :=
  ⟨shake.masses, shake.constraintIndices, shake.constraintLengths,
    shake.shakeTolerance, shake.maxIterations⟩

/-- The log-free view of a kernel state: the configurations of its two
collaborator objects. -/
def KernelState.config (k : KernelState) :
    Option DynamicsConfig × Option ShakeConfig :=
  (k.dynamics.map BrookVerletDynamics.config, k.shake.map BrookShakeAlgorithm.config)

/-- The log-free view of a step's outcome: resulting dynamics configuration,
updated positions and velocities, and which branch of the step-size check
ran. -/
def ExecResult.observe (r : ExecResult) :
    DynamicsConfig × List Vec3 × List Vec3 × Bool :=
  (r.dynamics.config, r.positions, r.velocities, r.invokedUpdateParameters)

/-! ### Concrete instances

Small closed systems and kernel states used to witness the theorems below
and to exhibit the non-convergence scenario. -/

/-- A well-formed two-particle system: unit masses, one constraint holding
particles 0 and 1 at distance 1. -/
def sGood : System :=
  { numParticles := 2, getParticleMass := fun _ => 1,
    numConstraints := 1, getConstraintParameters := fun _ => (0, 1, 1) }

/-- A malformed system: its single constraint is the self-pair `(0, 0)`. -/
def sBad : System :=
  { numParticles := 2, getParticleMass := fun _ => 1,
    numConstraints := 1, getConstraintParameters := fun _ => (0, 0, 1) }

def iGood : VerletIntegrator := { stepSize := 1/100, constraintTolerance := 1/10000 }

/-- Kernel state after one successful `initialize` on `sGood`. -/
def kGood1 : KernelState :=
  (BrookIntegrateVerletStepKernel.init (mkKernel none) sGood iGood).toOption.getD (mkKernel none)

/-- Kernel state after a second `initialize` on the same inputs. -/
def kGood2 : KernelState :=
  (BrookIntegrateVerletStepKernel.init kGood1 sGood iGood).toOption.getD (mkKernel none)

/-- A dynamics object with cached step size `0` and no particles. -/
def dynW1 : BrookVerletDynamics := { masses := [], stepSize := 0, log := none }

/-- An initialized kernel state holding `dynW1` and a constraint-free SHAKE
object. -/
def kW1 : KernelState :=
  { log := none, dynamics := some dynW1, shake := some {}, logLines := 0 }

/-- An integrator whose configured step size `1/10` differs from `dynW1`'s
cached `0` by more than epsilon. -/
def iW1 : VerletIntegrator := { stepSize := 1/10, constraintTolerance := 0 }

/-- The step outcome of `execute kW1 iW1` on empty arrays: the step-size
refresh fires. -/
def rW1 : ExecResult :=
  { dynamics := { masses := [], stepSize := 1/10, log := none },
    positions := [], velocities := [], invokedUpdateParameters := true }

/-- A dynamics object with cached step size `1.0e-05`. -/
def dynW2 : BrookVerletDynamics := { masses := [], stepSize := 1/100000, log := none }

def kW2 : KernelState :=
  { log := none, dynamics := some dynW2, shake := some {}, logLines := 0 }

/-- An integrator configured at `9.0e-05`: a ninefold relative change from
the cached `1.0e-05`, but an absolute difference of `8.0e-05`, below the
`1.0e-04` threshold. -/
def iW2 : VerletIntegrator := { stepSize := 9/100000, constraintTolerance := 0 }

/-- The step outcome of `execute kW2 iW2` on empty arrays: no refresh. -/
def rW2 : ExecResult :=
  { dynamics := dynW2, positions := [], velocities := [],
    invokedUpdateParameters := false }

/-- A SHAKE object whose single constraint cannot be satisfied: both
particles are fixed (zero inverse mass), so every pass skips the correction,
and the tolerance is far tighter than the initial violation. -/
def shakeFail : BrookShakeAlgorithm :=
  { masses := [0, 0], constraintIndices := [[0, 1]], constraintLengths := [1],
    shakeTolerance := 1/1000000000, maxIterations := 40, log := none }

def dynFail : BrookVerletDynamics := { masses := [0, 0], stepSize := 1/1000, log := none }

/-- Positions violating `shakeFail`'s constraint: separation `3/2` against
target distance `1`. -/
def psFail : List Vec3 := [⟨0, 0, 0⟩, ⟨3/2, 0, 0⟩]

/-- Zero velocity/force arrays for the two-particle scenarios. -/
def zeros2 : List Vec3 := [⟨0, 0, 0⟩, ⟨0, 0, 0⟩]

def kFail : KernelState :=
  { log := none, dynamics := some dynFail, shake := some shakeFail, logLines := 0 }

def iFail : VerletIntegrator := { stepSize := 1/1000, constraintTolerance := 0 }

/-! ## Theorems -/

/-- C1: on every `execute` call, `updateParameters` is invoked (with the new
step size) exactly when the absolute difference between the integrator's
configured step size and the dynamics object's cached step size exceeds
epsilon; when the difference is at most epsilon no reconfiguration occurs and
the cached step-size state is unchanged. -/
theorem execute_updateParameters_iff (k : KernelState) (integrator : VerletIntegrator)
    (ps vs fs : List Vec3) (dyn : BrookVerletDynamics) (r : ExecResult)
    (hdyn : k.dynamics = some dyn)
    (h : BrookIntegrateVerletStepKernel.execute k integrator ps vs fs = some r) :
    (r.invokedUpdateParameters = true ↔ |integrator.stepSize - dyn.stepSize| > epsilon)
      ∧ (r.invokedUpdateParameters = true →
          r.dynamics = dyn.updateParameters integrator.stepSize)
      ∧ (|integrator.stepSize - dyn.stepSize| ≤ epsilon → r.dynamics = dyn) := by
  cases hsh : k.shake with
  | none =>
      rw [BrookIntegrateVerletStepKernel.execute, hdyn, hsh] at h
      exact absurd h (by simp)
  | some shake =>
      rw [BrookIntegrateVerletStepKernel.execute, hdyn, hsh] at h
      simp only [Option.some.injEq] at h
      subst h
      by_cases hc : |integrator.stepSize - dyn.stepSize| > epsilon
      · simp [hc, le_of_lt, not_lt.symm]
      · simp [hc]

/-- C1 witness: a configured step size of `1/10` against a cached `0`
exceeds epsilon, so the refresh fires. -/
theorem execute_updateParameters_iff_witness :
    (rW1.invokedUpdateParameters = true ↔ |iW1.stepSize - dynW1.stepSize| > epsilon)
      ∧ (rW1.invokedUpdateParameters = true →
          rW1.dynamics = dynW1.updateParameters iW1.stepSize)
      ∧ (|iW1.stepSize - dynW1.stepSize| ≤ epsilon → rW1.dynamics = dynW1) :=
  execute_updateParameters_iff kW1 iW1 [] [] [] dynW1 rW1 (by rfl)
    (by with_unfolding_all decide)

/-- C10: the step-size change threshold of `execute` is the fixed absolute
constant `1.0e-04`: whenever the absolute difference between configured and
cached step sizes is at most `1/10000`, `updateParameters` is not invoked and
the dynamics state is unchanged, regardless of the relative change. -/
theorem execute_threshold_absolute (k : KernelState) (integrator : VerletIntegrator)
    (ps vs fs : List Vec3) (dyn : BrookVerletDynamics) (r : ExecResult)
    (hdyn : k.dynamics = some dyn)
    (h : BrookIntegrateVerletStepKernel.execute k integrator ps vs fs = some r)
    (hsmall : |integrator.stepSize - dyn.stepSize| ≤ epsilon) :
    epsilon = 1/10000 ∧ r.invokedUpdateParameters = false ∧ r.dynamics = dyn := by
  cases hsh : k.shake with
  | none =>
      rw [BrookIntegrateVerletStepKernel.execute, hdyn, hsh] at h
      exact absurd h (by simp)
  | some shake =>
      rw [BrookIntegrateVerletStepKernel.execute, hdyn, hsh] at h
      simp only [Option.some.injEq] at h
      subst h
      have hc : ¬ (|integrator.stepSize - dyn.stepSize| > epsilon) := not_lt.mpr hsmall
      refine ⟨rfl, ?_, ?_⟩ <;> simp [hc]

set_option maxRecDepth 10000 in
/-- C10 witness: cached `1.0e-05`, configured `9.0e-05`: a ninefold relative
change whose absolute difference `8.0e-05` stays within the threshold, so no
refresh occurs. -/
theorem execute_threshold_absolute_witness :
    epsilon = 1/10000 ∧ rW2.invokedUpdateParameters = false ∧ rW2.dynamics = dynW2 :=
  execute_threshold_absolute kW2 iW2 [] [] [] dynW2 rW2 (by rfl)
    (by with_unfolding_all rfl) (by with_unfolding_all decide)

/-- C8: `execute` factors into the specified phase order: (a) the step-size
check determines the dynamics state `dyn2` used for the rest of the step,
then (b) the Verlet advance runs on the current positions/velocities/forces
with `dyn2`'s step size, producing the candidate positions, and then (c) the
SHAKE projection consumes the pre-step and candidate positions; the reported
positions are the projection's output and the reported velocities correct the
advanced velocities by the projection displacement.  The step-size check
precedes the Verlet update (its refreshed step size feeds the advance), and
the advance precedes the projection (its candidate positions feed it). -/
theorem execute_phase_order (k : KernelState) (integrator : VerletIntegrator)
    (ps vs fs : List Vec3) (dyn : BrookVerletDynamics) (shake : BrookShakeAlgorithm)
    (r : ExecResult)
    (hdyn : k.dynamics = some dyn) (hshake : k.shake = some shake)
    (h : BrookIntegrateVerletStepKernel.execute k integrator ps vs fs = some r) :
    ∃ dyn2 : BrookVerletDynamics,
      dyn2 = (if |integrator.stepSize - dyn.stepSize| > epsilon
              then dyn.updateParameters integrator.stepSize else dyn)
      ∧ r.dynamics = dyn2
      ∧ r.positions =
          (shake.project ps
            (verletAdvance (dyn2.masses.map invMass) dyn2.stepSize ps vs fs).1).1
      ∧ r.velocities =
          velocityCorrection dyn2.stepSize
            (verletAdvance (dyn2.masses.map invMass) dyn2.stepSize ps vs fs).2
            (verletAdvance (dyn2.masses.map invMass) dyn2.stepSize ps vs fs).1
            r.positions := by
  rw [BrookIntegrateVerletStepKernel.execute, hdyn, hshake] at h
  simp only [Option.some.injEq] at h
  subst h
  exact ⟨_, rfl, rfl, rfl, rfl⟩

/-- C8 witness: the phase decomposition at the concrete no-constraint
kernel `kW1`. -/
theorem execute_phase_order_witness :
    ∃ dyn2 : BrookVerletDynamics,
      dyn2 = (if |iW1.stepSize - dynW1.stepSize| > epsilon
              then dynW1.updateParameters iW1.stepSize else dynW1)
      ∧ rW1.dynamics = dyn2
      ∧ rW1.positions =
          (BrookShakeAlgorithm.project {} []
            (verletAdvance (dyn2.masses.map invMass) dyn2.stepSize [] [] []).1).1
      ∧ rW1.velocities =
          velocityCorrection dyn2.stepSize
            (verletAdvance (dyn2.masses.map invMass) dyn2.stepSize [] [] []).2
            (verletAdvance (dyn2.masses.map invMass) dyn2.stepSize [] [] []).1
            rW1.positions :=
  execute_phase_order kW1 iW1 [] [] [] dynW1 {} rW1 (by rfl) (by rfl)
    (by with_unfolding_all decide)

/-- Helper: every successful `init` produces a kernel whose SHAKE object is
built by the setup-setters pipeline from the system's tables, the
integrator's tolerance, and the iteration cap 40, and whose dynamics object
holds the mass table; log and log-line count carry over from the input
kernel. -/
theorem init_ok_shape (k : KernelState) (s : System) (integrator : VerletIntegrator)
    (k2 : KernelState)
    (h : BrookIntegrateVerletStepKernel.init k s integrator = .ok k2) :
    ∃ sh : BrookShakeAlgorithm,
      (BrookShakeAlgorithm.setup (BrookShakeAlgorithm.setLog {} k.log)
          ((List.range s.numParticles).map s.getParticleMass)
          ((List.range s.numConstraints).map
            (fun ii => [(s.getConstraintParameters ii).1,
                        (s.getConstraintParameters ii).2.1]))
          ((List.range s.numConstraints).map
            (fun ii => (s.getConstraintParameters ii).2.2)) = .ok sh)
      ∧ k2 = { log := k.log,
               dynamics := some (BrookVerletDynamics.setLog
                 (BrookVerletDynamics.setup {}
                   ((List.range s.numParticles).map s.getParticleMass)) k.log),
               shake := some ((sh.setShakeTolerance
                 (brookFloatOfDouble integrator.constraintTolerance)).setMaxIterations 40),
               logLines := k.logLines } := by
  rw [BrookIntegrateVerletStepKernel.init] at h
  split at h
  · exact absurd h (by simp)
  · rename_i sh hsetup
    refine ⟨sh, hsetup, ?_⟩
    simp only [Except.ok.injEq] at h
    subst h
    simp [printOn]

/-- Helper: a successful SHAKE setup stores exactly the tables it was
given. -/
theorem setup_ok_fields (sh0 : BrookShakeAlgorithm) (masses : List ℚ)
    (idx : List (List ℕ)) (lens : List ℚ) (sh : BrookShakeAlgorithm)
    (h : sh0.setup masses idx lens = .ok sh) :
    sh.masses = masses ∧ sh.constraintIndices = idx ∧ sh.constraintLengths = lens := by
  rw [BrookShakeAlgorithm.setup] at h
  split at h
  · exact absurd h (by simp)
  · split at h
    · simp only [Except.ok.injEq] at h
      subst h
      exact ⟨rfl, rfl, rfl⟩
    · exact absurd h (by simp)

/-- Helper: indexing a table built as `map f (range n)`. -/
theorem rangeMap_getD {α : Type} (n : ℕ) (f : ℕ → α) (d : α) (ii : ℕ) (hii : ii < n) :
    (((List.range n).map f).getD ii d) = f ii := by
  rw [List.getD_eq_getElem?_getD, List.getElem?_map, List.getElem?_range hii]
  rfl

/-- C4: every (successful) `initialize` call installs the iteration cap 40 in
the SHAKE solver. -/
theorem init_sets_maxIterations (k : KernelState) (s : System)
    (integrator : VerletIntegrator) (k2 : KernelState)
    (h : BrookIntegrateVerletStepKernel.init k s integrator = .ok k2) :
    ∃ sh : BrookShakeAlgorithm, k2.shake = some sh ∧ sh.maxIterations = 40 := by
  obtain ⟨sh, -, rfl⟩ := init_ok_shape k s integrator k2 h
  exact ⟨_, rfl, rfl⟩

/-- C4 witness: the kernel initialized on the two-particle system `sGood`
carries iteration cap 40. -/
theorem init_sets_maxIterations_witness :
    ∃ sh : BrookShakeAlgorithm, kGood1.shake = some sh ∧ sh.maxIterations = 40 :=
  init_sets_maxIterations (mkKernel none) sGood iGood kGood1 (by with_unfolding_all rfl)

/-- C5: every (successful) `initialize` call installs, as the SHAKE
tolerance, exactly the driving integrator's configured constraint tolerance
converted to the platform floating-point type. -/
theorem init_sets_tolerance (k : KernelState) (s : System)
    (integrator : VerletIntegrator) (k2 : KernelState)
    (h : BrookIntegrateVerletStepKernel.init k s integrator = .ok k2) :
    ∃ sh : BrookShakeAlgorithm, k2.shake = some sh
      ∧ sh.shakeTolerance = brookFloatOfDouble integrator.constraintTolerance := by
  obtain ⟨sh, -, rfl⟩ := init_ok_shape k s integrator k2 h
  exact ⟨_, rfl, rfl⟩

/-- C5 witness: initializing on `sGood` with integrator tolerance `1/10000`
installs SHAKE tolerance `1/10000`. -/
theorem init_sets_tolerance_witness :
    ∃ sh : BrookShakeAlgorithm, kGood1.shake = some sh
      ∧ sh.shakeTolerance = brookFloatOfDouble iGood.constraintTolerance :=
  init_sets_tolerance (mkKernel none) sGood iGood kGood1 (by with_unfolding_all rfl)

/-- C6: a successful `initialize` builds the mass table and constraint set
from the topology exactly: the stored mass sequence has length
`numParticles` with entry `ii` equal to the system's mass of particle `ii`
(in both collaborator objects), and for each constraint index `ii` the
stored index pair and target length are the values of
`getConstraintParameters ii`, in topology order with pairing preserved. -/
theorem init_builds_tables (k : KernelState) (s : System)
    (integrator : VerletIntegrator) (k2 : KernelState)
    (h : BrookIntegrateVerletStepKernel.init k s integrator = .ok k2) :
    ∃ (dyn : BrookVerletDynamics) (sh : BrookShakeAlgorithm),
      k2.dynamics = some dyn ∧ k2.shake = some sh
      ∧ dyn.masses = sh.masses
      ∧ sh.masses.length = s.numParticles
      ∧ (∀ ii, ii < s.numParticles → sh.masses.getD ii 0 = s.getParticleMass ii)
      ∧ sh.constraintIndices.length = s.numConstraints
      ∧ sh.constraintLengths.length = s.numConstraints
      ∧ (∀ ii, ii < s.numConstraints →
          sh.constraintIndices.getD ii []
              = [(s.getConstraintParameters ii).1, (s.getConstraintParameters ii).2.1]
            ∧ sh.constraintLengths.getD ii 0 = (s.getConstraintParameters ii).2.2) := by
  obtain ⟨sh, hsetup, rfl⟩ := init_ok_shape k s integrator k2 h
  obtain ⟨hm, hi, hl⟩ := setup_ok_fields _ _ _ _ _ hsetup
  refine ⟨_, _, rfl, rfl, ?_, ?_, ?_, ?_, ?_, ?_⟩
  · simp [BrookVerletDynamics.setup, BrookVerletDynamics.setLog,
      BrookShakeAlgorithm.setShakeTolerance, BrookShakeAlgorithm.setMaxIterations, hm]
  · simp [BrookShakeAlgorithm.setShakeTolerance, BrookShakeAlgorithm.setMaxIterations, hm]
  · intro ii hii
    simp only [BrookShakeAlgorithm.setShakeTolerance, BrookShakeAlgorithm.setMaxIterations, hm]
    exact rangeMap_getD _ _ _ _ hii
  · simp [BrookShakeAlgorithm.setShakeTolerance, BrookShakeAlgorithm.setMaxIterations, hi]
  · simp [BrookShakeAlgorithm.setShakeTolerance, BrookShakeAlgorithm.setMaxIterations, hl]
  · intro ii hii
    constructor
    · simp only [BrookShakeAlgorithm.setShakeTolerance, BrookShakeAlgorithm.setMaxIterations, hi]
      exact rangeMap_getD _ _ _ _ hii
    · simp only [BrookShakeAlgorithm.setShakeTolerance, BrookShakeAlgorithm.setMaxIterations, hl]
      exact rangeMap_getD _ _ _ _ hii

/-- C6 witness: the tables built on the two-particle system `sGood`. -/
theorem init_builds_tables_witness :
    ∃ (dyn : BrookVerletDynamics) (sh : BrookShakeAlgorithm),
      kGood1.dynamics = some dyn ∧ kGood1.shake = some sh
      ∧ dyn.masses = sh.masses
      ∧ sh.masses.length = sGood.numParticles
      ∧ (∀ ii, ii < sGood.numParticles → sh.masses.getD ii 0 = sGood.getParticleMass ii)
      ∧ sh.constraintIndices.length = sGood.numConstraints
      ∧ sh.constraintLengths.length = sGood.numConstraints
      ∧ (∀ ii, ii < sGood.numConstraints →
          sh.constraintIndices.getD ii []
              = [(sGood.getConstraintParameters ii).1, (sGood.getConstraintParameters ii).2.1]
            ∧ sh.constraintLengths.getD ii 0 = (sGood.getConstraintParameters ii).2.2) :=
  init_builds_tables (mkKernel none) sGood iGood kGood1 (by with_unfolding_all rfl)

/-- Helper: `init` reads nothing from the incoming kernel state except its
log sink and log-line count, so two kernels agreeing there initialize
identically. -/
theorem init_reads_only_log (k kp : KernelState) (s : System)
    (integrator : VerletIntegrator)
    (hl : k.log = kp.log) (hn : k.logLines = kp.logLines) :
    BrookIntegrateVerletStepKernel.init k s integrator
      = BrookIntegrateVerletStepKernel.init kp s integrator := by
  rw [BrookIntegrateVerletStepKernel.init, BrookIntegrateVerletStepKernel.init, hl, hn]

/-- C7: initializing twice with identical inputs leaves identical
ConstraintSet/MassTable contents: the collaborator objects after the second
call equal those after the first. -/
theorem init_idempotent (k : KernelState) (s : System)
    (integrator : VerletIntegrator) (k1 k2 : KernelState)
    (h1 : BrookIntegrateVerletStepKernel.init k s integrator = .ok k1)
    (h2 : BrookIntegrateVerletStepKernel.init k1 s integrator = .ok k2) :
    k2.shake = k1.shake ∧ k2.dynamics = k1.dynamics := by
  obtain ⟨sh, -, hk1⟩ := init_ok_shape k s integrator k1 h1
  rw [init_reads_only_log k1 k s integrator (by rw [hk1]) (by rw [hk1]), h1] at h2
  simp only [Except.ok.injEq] at h2
  subst h2
  exact ⟨rfl, rfl⟩

/-- C7 witness: the second initialization on `sGood` reproduces the first
kernel's collaborator objects. -/
theorem init_idempotent_witness :
    kGood2.shake = kGood1.shake ∧ kGood2.dynamics = kGood1.dynamics :=
  init_idempotent (mkKernel none) sGood iGood kGood1 kGood2
    (by with_unfolding_all rfl) (by with_unfolding_all rfl)

/-- Helper: SHAKE setup fails with a malformed-constraint error as soon as
one stored constraint record fails validation. -/
theorem setup_error_of_malformed (sh0 : BrookShakeAlgorithm) (masses : List ℚ)
    (idx : List (List ℕ)) (lens : List ℚ) (ii : ℕ) (pair : List ℕ) (d : ℚ)
    (hlen : idx.length = lens.length)
    (hpair : idx[ii]? = some pair) (hd : lens[ii]? = some d)
    (hbad : validConstraint masses.length pair d = false) :
    sh0.setup masses idx lens = .error .malformedConstraint := by
  rw [BrookShakeAlgorithm.setup, if_neg (by simp [hlen]), if_neg ?_]
  intro hall
  have hmem : (pair, d) ∈ idx.zip lens :=
    List.getElem?_mem (List.getElem?_zip_eq_some.mpr ⟨hpair, hd⟩)
  have := List.all_eq_true.mp hall (pair, d) hmem
  rw [hbad] at this
  exact Bool.false_ne_true this

/-- C3: a constraint with an out-of-range particle index, a self-referential
pair, or a non-positive target distance makes `initialize` fail with a
configuration error instead of completing setup, and step execution does not
proceed after the failure. -/
theorem init_rejects_malformed (k : KernelState) (s : System)
    (integrator : VerletIntegrator) (ii : ℕ)
    (hii : ii < s.numConstraints)
    (hbad : s.numParticles ≤ (s.getConstraintParameters ii).1
          ∨ s.numParticles ≤ (s.getConstraintParameters ii).2.1
          ∨ (s.getConstraintParameters ii).1 = (s.getConstraintParameters ii).2.1
          ∨ (s.getConstraintParameters ii).2.2 ≤ 0) :
    BrookIntegrateVerletStepKernel.init k s integrator
        = .error .malformedConstraint
      ∧ ∀ ps vs fs : List Vec3,
          BrookIntegrateVerletStepKernel.initThenStep k s integrator ps vs fs
            = .error .malformedConstraint := by
  have hvc : validConstraint
      ((List.range s.numParticles).map s.getParticleMass).length
      [(s.getConstraintParameters ii).1, (s.getConstraintParameters ii).2.1]
      ((s.getConstraintParameters ii).2.2) = false := by
    rw [validConstraint]
    simp only [List.length_map, List.length_range]
    rcases hbad with hb | hb | hb | hb
    · simp [not_lt.mpr hb]
    · simp [not_lt.mpr hb]
    · simp [hb]
    · simp [not_lt.mpr hb]
  have hsetup : BrookShakeAlgorithm.setup (BrookShakeAlgorithm.setLog {} k.log)
      ((List.range s.numParticles).map s.getParticleMass)
      ((List.range s.numConstraints).map
        (fun jj => [(s.getConstraintParameters jj).1, (s.getConstraintParameters jj).2.1]))
      ((List.range s.numConstraints).map
        (fun jj => (s.getConstraintParameters jj).2.2))
      = .error .malformedConstraint := by
    refine setup_error_of_malformed _ _ _ _ ii
      [(s.getConstraintParameters ii).1, (s.getConstraintParameters ii).2.1]
      ((s.getConstraintParameters ii).2.2) (by simp) ?_ ?_ hvc
    · rw [List.getElem?_map, List.getElem?_range hii]
      rfl
    · rw [List.getElem?_map, List.getElem?_range hii]
      rfl
  have hinit : BrookIntegrateVerletStepKernel.init k s integrator
      = .error .malformedConstraint := by
    rw [BrookIntegrateVerletStepKernel.init]
    rw [hsetup]
  refine ⟨hinit, fun ps vs fs => ?_⟩
  rw [BrookIntegrateVerletStepKernel.initThenStep, hinit]

/-- C3 witness: the self-pair constraint `(0, 0)` of `sBad` is rejected and
no step runs. -/
theorem init_rejects_malformed_witness :
    BrookIntegrateVerletStepKernel.init (mkKernel none) sBad iGood
        = .error .malformedConstraint
      ∧ ∀ ps vs fs : List Vec3,
          BrookIntegrateVerletStepKernel.initThenStep (mkKernel none) sBad iGood ps vs fs
            = .error .malformedConstraint :=
  init_rejects_malformed (mkKernel none) sBad iGood 0 (by decide)
    (Or.inr (Or.inr (Or.inl rfl)))

set_option maxRecDepth 40000 in
/-- C2: at a concrete step on which SHAKE exhausts its 40-iteration budget
without satisfying the tolerance (both constrained particles are fixed, so no
pass can reduce the violation), `BrookVerletDynamics::update` reports
non-convergence (`false`), yet `execute` completes and its observable outcome
(`ExecResult`, mirroring the `void` return and the in-place arrays) carries
no convergence status: the flag returned by the update call is discarded, so
the non-convergence is silently swallowed rather than reported to the
caller. -/
theorem execute_discards_nonconvergence :
    dynFail.update psFail zeros2 zeros2 shakeFail = (psFail, zeros2, false)
      ∧ BrookIntegrateVerletStepKernel.execute kFail iFail psFail zeros2 zeros2
          = some { dynamics := dynFail, positions := psFail,
                   velocities := zeros2, invokedUpdateParameters := false } := by
  constructor
  · with_unfolding_all decide
  · with_unfolding_all decide

/-- Helper: the log-free outcome of SHAKE setup does not depend on the
receiving object's log sink. -/
theorem setup_map_config (sh0 sh0' : BrookShakeAlgorithm) (masses : List ℚ)
    (idx : List (List ℕ)) (lens : List ℚ)
    (htol : sh0.shakeTolerance = sh0'.shakeTolerance)
    (hmax : sh0.maxIterations = sh0'.maxIterations) :
    (sh0.setup masses idx lens).map BrookShakeAlgorithm.config
      = (sh0'.setup masses idx lens).map BrookShakeAlgorithm.config := by
  rw [BrookShakeAlgorithm.setup, BrookShakeAlgorithm.setup]
  split_ifs <;> simp [Except.map, BrookShakeAlgorithm.config, htol, hmax]

/-- Helper: `BrookVerletDynamics::update` depends only on the numeric
configurations of the dynamics and SHAKE objects, not on their log sinks. -/
theorem update_depends_on_config (dyn dyn' : BrookVerletDynamics)
    (shake shake' : BrookShakeAlgorithm) (ps vs fs : List Vec3)
    (hd : dyn.config = dyn'.config) (hs : shake.config = shake'.config) :
    dyn.update ps vs fs shake = dyn'.update ps vs fs shake' := by
  cases dyn
  cases dyn'
  cases shake
  cases shake'
  simp only [BrookVerletDynamics.config, DynamicsConfig.mk.injEq] at hd
  simp only [BrookShakeAlgorithm.config, ShakeConfig.mk.injEq] at hs
  obtain ⟨h1, h2⟩ := hd
  obtain ⟨g1, g2, g3, g4, g5⟩ := hs
  subst h1 h2 g1 g2 g3 g4 g5
  rfl

/-- Helper: the log-free outcome of `execute` depends only on the log-free
view of the kernel state. -/
theorem execute_observe_depends_on_config (k kp : KernelState)
    (integrator : VerletIntegrator) (ps vs fs : List Vec3)
    (hc : k.config = kp.config) :
    (BrookIntegrateVerletStepKernel.execute k integrator ps vs fs).map ExecResult.observe
      = (BrookIntegrateVerletStepKernel.execute kp integrator ps vs fs).map
          ExecResult.observe := by
  obtain ⟨lg, dy, sh, ln⟩ := k
  obtain ⟨lg', dy', sh', ln'⟩ := kp
  simp only [KernelState.config, Prod.mk.injEq] at hc
  obtain ⟨hdy, hsh⟩ := hc
  rw [BrookIntegrateVerletStepKernel.execute, BrookIntegrateVerletStepKernel.execute]
  cases dy <;> cases dy'
  · cases sh <;> cases sh' <;> simp
  · simp at hdy
  · simp at hdy
  · rename_i dyn dyn'
    replace hdy : dyn.config = dyn'.config := by simpa using hdy
    have hstep : dyn.stepSize = dyn'.stepSize := congrArg DynamicsConfig.stepSize hdy
    cases sh <;> cases sh'
    · simp
    · simp at hsh
    · simp at hsh
    · rename_i shake shake'
      replace hsh : shake.config = shake'.config := by simpa using hsh
      have hd2 : (if |integrator.stepSize - dyn.stepSize| > epsilon
            then dyn.updateParameters integrator.stepSize else dyn).config
          = (if |integrator.stepSize - dyn'.stepSize| > epsilon
            then dyn'.updateParameters integrator.stepSize else dyn').config := by
        rw [hstep]
        split_ifs
        · cases dyn
          cases dyn'
          simp only [BrookVerletDynamics.config, DynamicsConfig.mk.injEq,
            BrookVerletDynamics.updateParameters] at hdy ⊢
          exact ⟨hdy.1, trivial⟩
        · exact hdy
      have hupd : (if |integrator.stepSize - dyn.stepSize| > epsilon
            then dyn.updateParameters integrator.stepSize else dyn).update ps vs fs shake
          = (if |integrator.stepSize - dyn'.stepSize| > epsilon
            then dyn'.updateParameters integrator.stepSize else dyn').update ps vs fs shake' :=
        update_depends_on_config _ _ _ _ _ _ _ hd2 hsh
      simp only [Option.map_some', Option.some.injEq, ExecResult.observe, Prod.mk.injEq]
      exact ⟨hd2, congrArg Prod.fst hupd, congrArg (fun t => t.2.1) hupd, by rw [hstep]⟩

/-- C9: attaching or omitting the platform's log sink changes nothing
observable: for every system, integrator and input arrays, the log-free view
of the initialized kernel and the log-free outcome of the subsequent step are
identical between a run constructed with a log sink and a run constructed
without one. -/
theorem log_hook_elidable (s : System) (integrator : VerletIntegrator)
    (ps vs fs : List Vec3) :
    (BrookIntegrateVerletStepKernel.init (mkKernel (some ())) s integrator).map
        KernelState.config
      = (BrookIntegrateVerletStepKernel.init (mkKernel none) s integrator).map
          KernelState.config
    ∧ (BrookIntegrateVerletStepKernel.initThenStep
          (mkKernel (some ())) s integrator ps vs fs).map (Option.map ExecResult.observe)
      = (BrookIntegrateVerletStepKernel.initThenStep
          (mkKernel none) s integrator ps vs fs).map (Option.map ExecResult.observe) := by
  have hsetup := setup_map_config
    (BrookShakeAlgorithm.setLog {} (mkKernel (some ())).log)
    (BrookShakeAlgorithm.setLog {} (mkKernel none).log)
    ((List.range s.numParticles).map s.getParticleMass)
    ((List.range s.numConstraints).map
      (fun ii => [(s.getConstraintParameters ii).1, (s.getConstraintParameters ii).2.1]))
    ((List.range s.numConstraints).map
      (fun ii => (s.getConstraintParameters ii).2.2)) rfl rfl
  cases hA : BrookShakeAlgorithm.setup (BrookShakeAlgorithm.setLog {} (mkKernel (some ())).log)
      ((List.range s.numParticles).map s.getParticleMass)
      ((List.range s.numConstraints).map
        (fun ii => [(s.getConstraintParameters ii).1, (s.getConstraintParameters ii).2.1]))
      ((List.range s.numConstraints).map
        (fun ii => (s.getConstraintParameters ii).2.2)) with
  | error e =>
      have hB : BrookShakeAlgorithm.setup (BrookShakeAlgorithm.setLog {} (mkKernel none).log)
          ((List.range s.numParticles).map s.getParticleMass)
          ((List.range s.numConstraints).map
            (fun ii => [(s.getConstraintParameters ii).1, (s.getConstraintParameters ii).2.1]))
          ((List.range s.numConstraints).map
            (fun ii => (s.getConstraintParameters ii).2.2)) = .error e := by
        rw [hA] at hsetup
        cases hBv : BrookShakeAlgorithm.setup (BrookShakeAlgorithm.setLog {} (mkKernel none).log)
            ((List.range s.numParticles).map s.getParticleMass)
            ((List.range s.numConstraints).map
              (fun ii => [(s.getConstraintParameters ii).1, (s.getConstraintParameters ii).2.1]))
            ((List.range s.numConstraints).map
              (fun ii => (s.getConstraintParameters ii).2.2)) <;> rw [hBv] at hsetup
        · rename_i a
          have hea : e = a := by simpa [Except.map] using hsetup
          rw [hea]
        · exact absurd hsetup (by simp [Except.map])
      constructor
      · rw [BrookIntegrateVerletStepKernel.init, BrookIntegrateVerletStepKernel.init, hA, hB]
      · rw [BrookIntegrateVerletStepKernel.initThenStep,
            BrookIntegrateVerletStepKernel.initThenStep,
            BrookIntegrateVerletStepKernel.init, BrookIntegrateVerletStepKernel.init, hA, hB]
  | ok shA =>
      obtain ⟨shB, hB, hcfg⟩ :
          ∃ shB, BrookShakeAlgorithm.setup (BrookShakeAlgorithm.setLog {} (mkKernel none).log)
            ((List.range s.numParticles).map s.getParticleMass)
            ((List.range s.numConstraints).map
              (fun ii => [(s.getConstraintParameters ii).1, (s.getConstraintParameters ii).2.1]))
            ((List.range s.numConstraints).map
              (fun ii => (s.getConstraintParameters ii).2.2)) = .ok shB
            ∧ shA.config = shB.config := by
        rw [hA] at hsetup
        cases hBv : BrookShakeAlgorithm.setup (BrookShakeAlgorithm.setLog {} (mkKernel none).log)
            ((List.range s.numParticles).map s.getParticleMass)
            ((List.range s.numConstraints).map
              (fun ii => [(s.getConstraintParameters ii).1, (s.getConstraintParameters ii).2.1]))
            ((List.range s.numConstraints).map
              (fun ii => (s.getConstraintParameters ii).2.2)) <;> rw [hBv] at hsetup
        · exact absurd hsetup (by simp [Except.map])
        · rename_i shB
          refine ⟨shB, rfl, ?_⟩
          simpa [Except.map] using hsetup
      have hkcfg :
          ({ log := (mkKernel (some ())).log,
             dynamics := some (BrookVerletDynamics.setLog
               (BrookVerletDynamics.setup {}
                 ((List.range s.numParticles).map s.getParticleMass)) (mkKernel (some ())).log),
             shake := some ((shA.setShakeTolerance
               (brookFloatOfDouble integrator.constraintTolerance)).setMaxIterations 40),
             logLines := (mkKernel (some ())).logLines
               + (if printOn ≠ 0 ∧ (mkKernel (some ())).log.isSome then 1 else 0) } :
             KernelState).config
          = ({ log := (mkKernel none).log,
               dynamics := some (BrookVerletDynamics.setLog
                 (BrookVerletDynamics.setup {}
                   ((List.range s.numParticles).map s.getParticleMass)) (mkKernel none).log),
               shake := some ((shB.setShakeTolerance
                 (brookFloatOfDouble integrator.constraintTolerance)).setMaxIterations 40),
               logLines := (mkKernel none).logLines
                 + (if printOn ≠ 0 ∧ (mkKernel none).log.isSome then 1 else 0) } :
               KernelState).config := by
        have h5 : shA.masses = shB.masses := congrArg ShakeConfig.masses hcfg
        have h6 : shA.constraintIndices = shB.constraintIndices :=
          congrArg ShakeConfig.constraintIndices hcfg
        have h7 : shA.constraintLengths = shB.constraintLengths :=
          congrArg ShakeConfig.constraintLengths hcfg
        simp [KernelState.config, BrookVerletDynamics.config, BrookShakeAlgorithm.config,
          BrookVerletDynamics.setup, BrookVerletDynamics.setLog,
          BrookShakeAlgorithm.setShakeTolerance, BrookShakeAlgorithm.setMaxIterations,
          h5, h6, h7]
      constructor
      · rw [BrookIntegrateVerletStepKernel.init, BrookIntegrateVerletStepKernel.init, hA, hB]
        simpa [Except.map] using hkcfg
      · rw [BrookIntegrateVerletStepKernel.initThenStep,
            BrookIntegrateVerletStepKernel.initThenStep,
            BrookIntegrateVerletStepKernel.init, BrookIntegrateVerletStepKernel.init, hA, hB]
        simp only [Except.map]
        exact congrArg Except.ok
          (execute_observe_depends_on_config _ _ integrator ps vs fs hkcfg)

end OpenMM
